import Mathlib

/-!
Verification of the build orchestration core of web2apkreal.

The definitions below are a shallow embedding of the JavaScript sources:
  src/utils/buildQueue.js        (admission control and watchdog)
  src/builder/zipBuilder.js      (process supervisor and ZIP pipeline)
  src/handlers/callbackHandler.js (build handlers and queue release)
Timestamps are modelled as integers (milliseconds), the slot map of the
queue as an association list in insertion order (JavaScript Map order),
and text as Lean strings processed through their character lists.
-/

namespace Web2Apk

/-! ### buildQueue.js: data model -/

/-- One in-flight build slot, as stored in the activeBuilds map:
startTime and lastActivity in milliseconds. -/
structure Build where
  startTime : Int
  lastActivity : Int
  deriving DecidableEq, Repr

/-- The queue state: the clamped concurrency bound and the chatId-keyed
slot map in insertion order. -/
structure QState where
  maxConcurrent : Int
  activeBuilds : List (Int × Build)
  deriving DecidableEq, Repr

/-- Map.get on the association list: the first entry with the key. -/
def mapGet : List (Int × Build) → Int → Option Build
  | [], _ => none
  | e :: t, id => if e.1 = id then some e.2 else mapGet t id

/-- Map.has on the association list. -/
def hasKey (l : List (Int × Build)) (id : Int) : Bool :=
  (mapGet l id).isSome

/-- Map.delete on the association list. -/
def mapDelete : List (Int × Build) → Int → List (Int × Build)
  | [], _ => []
  | e :: t, id => if e.1 = id then mapDelete t id else e :: mapDelete t id

/-- 45 minutes in milliseconds (this.MAX_BUILD_TIME). -/
def MAX_BUILD_TIME : Int := 45 * 60 * 1000

/-- 10 minutes in milliseconds (this.INACTIVITY_TIMEOUT). -/
def INACTIVITY_TIMEOUT : Int := 10 * 60 * 1000

/-! ### buildQueue.js: constructor configuration

The constructor reads process.env.MAX_CONCURRENT_BUILDS through
parseInt, replaces a NaN or 0 result by 1 (the JavaScript truthiness of
the expression parseInt(x) plus the default), and clamps into [1, 4]. -/

/-- Hexadecimal digit test, as parseInt uses for a 0x prefix. -/
def isHexDigitC (c : Char) : Bool :=
  c.isDigit || ('a' ≤ c && c ≤ 'f') || ('A' ≤ c && c ≤ 'F')

/-- Value of one hexadecimal digit. -/
def hexDigitVal (c : Char) : Nat :=
  if c.isDigit then c.toNat - 48
  else if 'a' ≤ c && c ≤ 'f' then c.toNat - 87
  else c.toNat - 55

/-- Value of a decimal digit string. -/
def decDigitsVal (cs : List Char) : Nat :=
  cs.foldl (fun a c => a * 10 + (c.toNat - 48)) 0

/-- Value of a hexadecimal digit string. -/
def hexDigitsVal (cs : List Char) : Nat :=
  cs.foldl (fun a c => a * 16 + hexDigitVal c) 0

/-- JavaScript parseInt with no radix argument: skip leading whitespace,
an optional sign, then a 0x or 0X prefixed hexadecimal or a decimal
digit run; none models NaN (no digit found). -/
def jsParseInt (s : String) : Option Int :=
  let cs := s.toList.dropWhile Char.isWhitespace
  let signed : Int × List Char :=
    match cs with
    | '-' :: t => (-1, t)
    | '+' :: t => (1, t)
    | _ => (1, cs)
  let sign := signed.1
  let body := signed.2
  match body with
  | '0' :: x :: t =>
    if x = 'x' ∨ x = 'X' then
      let ds := t.takeWhile isHexDigitC
      if ds.isEmpty then none else some (sign * (hexDigitsVal ds : Int))
    else
      let ds := body.takeWhile Char.isDigit
      if ds.isEmpty then none else some (sign * (decDigitsVal ds : Int))
  | _ =>
    let ds := body.takeWhile Char.isDigit
    if ds.isEmpty then none else some (sign * (decDigitsVal ds : Int))

/-- maxConcurrent as computed by the BuildQueue constructor from the
MAX_CONCURRENT_BUILDS environment value (none models an unset
variable, whose parseInt is NaN): parseInt(...) || 1 then
Math.max(1, Math.min(x, 4)). -/
def maxConcurrentOf (env : Option String) : Int :=
  let parsed : Option Int :=
    match env with
    | none => none
    | some s => jsParseInt s
  let v : Int :=
    match parsed with
    | none => 1
    | some k => if k = 0 then 1 else k
  max 1 (min v 4)

/-- A freshly constructed queue: clamped capacity, empty slot map. -/
def initQueue (env : Option String) : QState :=
  { maxConcurrent := maxConcurrentOf env, activeBuilds := [] }

/-! ### buildQueue.js: operations -/

/-- acquire(chatId): refuse when the chat already holds a slot or the
map is at capacity, otherwise insert a fresh slot with
startTime = lastActivity = now. -/
def acquireFn (id now : Int) (s : QState) : Bool × QState :=
  if hasKey s.activeBuilds id then (false, s)
  else if (s.activeBuilds.length : Int) ≥ s.maxConcurrent then (false, s)
  else
    let b : Build := { startTime := now, lastActivity := now }
    (true, { s with activeBuilds := s.activeBuilds ++ [(id, b)] })

/-- release(chatId): no-op when no slot exists, otherwise delete it. -/
def releaseFn (id : Int) (s : QState) : QState :=
  match mapGet s.activeBuilds id with
  | none => s
  | some _ => { s with activeBuilds := mapDelete s.activeBuilds id }

/-- forceRelease(chatId = null): the source tests the argument by
JavaScript truthiness, so both null and 0 take the clear-all branch;
a truthy id deletes just that slot when present. -/
def forceReleaseFn (id : Option Int) (s : QState) : QState :=
  match id with
  | some i =>
    if i = 0 then { s with activeBuilds := [] }
    else if hasKey s.activeBuilds i then
      { s with activeBuilds := mapDelete s.activeBuilds i }
    else s
  | none => { s with activeBuilds := [] }

/-- updateActivity(chatId = null): a truthy id that is present bumps
that slot only; otherwise (null, 0, or an absent id) every slot is
bumped, the backwards-compatibility broadcast. -/
def updateActivityFn (id : Option Int) (now : Int) (s : QState) : QState :=
  let touchOne := fun (i : Int) (e : Int × Build) =>
    if e.1 = i then (e.1, { e.2 with lastActivity := now }) else e
  let touched := s.activeBuilds.map (fun e => (e.1, { e.2 with lastActivity := now }))
  match id with
  | some i =>
    if i ≠ 0 ∧ hasKey s.activeBuilds i then
      { s with activeBuilds := s.activeBuilds.map (touchOne i) }
    else
      { s with activeBuilds := touched }
  | none =>
    { s with activeBuilds := touched }

/-- The watchdog mark for one slot at time now: totalTime over
MAX_BUILD_TIME, else inactiveTime over INACTIVITY_TIMEOUT, where the
source falls back to startTime when lastActivity is falsy (0). -/
def stuckMark (now : Int) (b : Build) : Bool :=
  let totalTime := now - b.startTime
  let inactiveTime := now - (if b.lastActivity = 0 then b.startTime else b.lastActivity)
  if totalTime > MAX_BUILD_TIME then true
  else if inactiveTime > INACTIVITY_TIMEOUT then true
  else false

/-- checkStuckBuilds: return early on an empty map, else collect the
marked chatIds in iteration order and forceRelease each of them. -/
def checkStuckBuilds (now : Int) (s : QState) : QState :=
  if s.activeBuilds.length = 0 then s
  else
    let toRelease := s.activeBuilds.foldl
      (fun acc e => if stuckMark now e.2 then acc ++ [e.1] else acc) ([] : List Int)
    toRelease.foldl (fun st i => forceReleaseFn (some i) st) s

/-- The queue operations a caller or the watchdog can perform. -/
inductive QOp where
  | acq (id now : Int)
  | rel (id : Int)
  | frel (id : Option Int)
  | upd (id : Option Int) (now : Int)
  | watchdog (now : Int)

/-- One operation applied to the state (the acquire verdict is dropped). -/
def applyOp (s : QState) (op : QOp) : QState :=
  match op with
  | .acq id now => (acquireFn id now s).2
  | .rel id => releaseFn id s
  | .frel id => forceReleaseFn id s
  | .upd id now => updateActivityFn id now s
  | .watchdog now => checkStuckBuilds now s

/-- A whole operation sequence applied in order. -/
def runOps (s : QState) (ops : List QOp) : QState :=
  ops.foldl applyOp s

/-! ### Queue lemmas -/

theorem mapDelete_length_le (l : List (Int × Build)) (id : Int) :
    (mapDelete l id).length ≤ l.length := by
  induction l with
  | nil => simp [mapDelete]
  | cons e t ih =>
    by_cases h : e.1 = id
    · simp only [mapDelete, if_pos h]
      exact Nat.le_succ_of_le ih
    · simp only [mapDelete, if_neg h, List.length_cons]
      exact Nat.succ_le_succ ih

theorem forceRelease_some_length_le (i : Int) (s : QState) :
    (forceReleaseFn (some i) s).activeBuilds.length ≤ s.activeBuilds.length := by
  unfold forceReleaseFn
  by_cases h0 : i = 0
  · simp [h0]
  · by_cases hk : hasKey s.activeBuilds i
    · simp only [if_neg h0, if_pos hk]
      exact mapDelete_length_le _ _
    · simp [h0, hk]

theorem forceRelease_some_max (i : Int) (s : QState) :
    (forceReleaseFn (some i) s).maxConcurrent = s.maxConcurrent := by
  unfold forceReleaseFn
  by_cases h0 : i = 0
  · simp [h0]
  · by_cases hk : hasKey s.activeBuilds i <;> simp [h0, hk]

theorem foldForce_length_le (ids : List Int) (s : QState) :
    (ids.foldl (fun st i => forceReleaseFn (some i) st) s).activeBuilds.length
      ≤ s.activeBuilds.length := by
  induction ids generalizing s with
  | nil => simp
  | cons i t ih =>
    exact le_trans (ih (forceReleaseFn (some i) s)) (forceRelease_some_length_le i s)

theorem foldForce_max (ids : List Int) (s : QState) :
    (ids.foldl (fun st i => forceReleaseFn (some i) st) s).maxConcurrent
      = s.maxConcurrent := by
  induction ids generalizing s with
  | nil => rfl
  | cons i t ih =>
    rw [List.foldl_cons, ih (forceReleaseFn (some i) s), forceRelease_some_max]

theorem applyOp_max (s : QState) (op : QOp) :
    (applyOp s op).maxConcurrent = s.maxConcurrent := by
  cases op with
  | acq id now =>
    unfold applyOp acquireFn
    by_cases h1 : hasKey s.activeBuilds id
    · simp [h1]
    · by_cases h2 : (s.activeBuilds.length : Int) ≥ s.maxConcurrent <;> simp [h1, h2]
  | rel id =>
    unfold applyOp releaseFn
    cases hg : mapGet s.activeBuilds id <;> simp [hg]
  | frel id =>
    cases id with
    | none => rfl
    | some i => exact forceRelease_some_max i s
  | upd id now =>
    unfold applyOp updateActivityFn
    cases id with
    | none => rfl
    | some i =>
      by_cases h : i ≠ 0 ∧ hasKey s.activeBuilds i <;> simp [h]
  | watchdog now =>
    unfold applyOp checkStuckBuilds
    by_cases h : s.activeBuilds.length = 0
    · simp [h]
    · simp only [if_neg h]
      exact foldForce_max _ s

theorem applyOp_size_le (s : QState) (op : QOp)
    (hs : (s.activeBuilds.length : Int) ≤ s.maxConcurrent) :
    ((applyOp s op).activeBuilds.length : Int) ≤ (applyOp s op).maxConcurrent := by
  rw [applyOp_max]
  cases op with
  | acq id now =>
    unfold applyOp acquireFn
    by_cases h1 : hasKey s.activeBuilds id
    · simpa [h1] using hs
    · by_cases h2 : (s.activeBuilds.length : Int) ≥ s.maxConcurrent
      · simpa [h1, h2] using hs
      · simp only [h1, Bool.false_eq_true, if_false, if_neg h2]
        simp only [List.length_append, List.length_cons, List.length_nil]
        push_cast
        omega
  | rel id =>
    unfold applyOp releaseFn
    cases hg : mapGet s.activeBuilds id with
    | none => simpa [hg] using hs
    | some b =>
      simp only [hg]
      calc ((mapDelete s.activeBuilds id).length : Int)
          ≤ (s.activeBuilds.length : Int) := by exact_mod_cast mapDelete_length_le _ _
        _ ≤ s.maxConcurrent := hs
  | frel id =>
    cases id with
    | none =>
      simp only [applyOp, forceReleaseFn, List.length_nil]
      omega
    | some i =>
      calc ((forceReleaseFn (some i) s).activeBuilds.length : Int)
          ≤ (s.activeBuilds.length : Int) := by
            exact_mod_cast forceRelease_some_length_le i s
        _ ≤ s.maxConcurrent := hs
  | upd id now =>
    unfold applyOp updateActivityFn
    cases id with
    | none => simpa using hs
    | some i =>
      by_cases h : i ≠ 0 ∧ hasKey s.activeBuilds i <;> simpa [h] using hs
  | watchdog now =>
    unfold applyOp checkStuckBuilds
    by_cases h : s.activeBuilds.length = 0
    · simpa [h] using hs
    · simp only [if_neg h]
      calc (((s.activeBuilds.foldl
              (fun acc e => if stuckMark now e.2 then acc ++ [e.1] else acc) []).foldl
              (fun st i => forceReleaseFn (some i) st) s).activeBuilds.length : Int)
          ≤ (s.activeBuilds.length : Int) := by exact_mod_cast foldForce_length_le _ s
        _ ≤ s.maxConcurrent := hs

theorem runOps_invariant (ops : List QOp) (s : QState)
    (hs : (s.activeBuilds.length : Int) ≤ s.maxConcurrent) :
    ((runOps s ops).activeBuilds.length : Int) ≤ (runOps s ops).maxConcurrent := by
  induction ops generalizing s with
  | nil => exact hs
  | cons op t ih => exact ih (applyOp s op) (applyOp_size_le s op hs)

theorem maxConcurrentOf_mem (env : Option String) :
    1 ≤ maxConcurrentOf env ∧ maxConcurrentOf env ≤ 4 := by
  unfold maxConcurrentOf
  constructor
  · exact le_max_left 1 _
  · exact max_le (by norm_num) (le_trans (min_le_right _ 4) (by norm_num))

/-- C2: from a freshly constructed queue, no sequence of acquire,
release, forceRelease, updateActivity and watchdog operations ever
makes the number of active slots exceed maxConcurrent, and
maxConcurrent is an integer clamped into [1, 4] whatever the
MAX_CONCURRENT_BUILDS environment value (including an unset or
non-numeric one, modelled by none and by strings parseInt cannot
read). -/
theorem buildQueue_capacity_invariant (env : Option String) (ops : List QOp) :
    ((runOps (initQueue env) ops).activeBuilds.length : Int)
        ≤ (runOps (initQueue env) ops).maxConcurrent
      ∧ 1 ≤ (runOps (initQueue env) ops).maxConcurrent
      ∧ (runOps (initQueue env) ops).maxConcurrent ≤ 4 := by
  have hrunmax : ∀ (t : List QOp) (s : QState), (runOps s t).maxConcurrent = s.maxConcurrent := by
    intro t
    induction t with
    | nil => intro s; rfl
    | cons op u ih =>
      intro s
      have h1 : runOps s (op :: u) = runOps (applyOp s op) u := rfl
      rw [h1, ih (applyOp s op), applyOp_max]
  have hinit : ((initQueue env).activeBuilds.length : Int) ≤ (initQueue env).maxConcurrent := by
    have := (maxConcurrentOf_mem env).1
    simp only [initQueue, List.length_nil]
    omega
  refine ⟨runOps_invariant ops (initQueue env) hinit, ?_, ?_⟩
  · rw [hrunmax ops (initQueue env)]
    exact (maxConcurrentOf_mem env).1
  · rw [hrunmax ops (initQueue env)]
    exact (maxConcurrentOf_mem env).2

/-! ### Duplicate acquire (C7) -/

theorem mapGet_append_single (l : List (Int × Build)) (id : Int) (b : Build) :
    mapGet (l ++ [(id, b)]) id = some (mapGet l id |>.getD b) := by
  induction l with
  | nil => simp [mapGet]
  | cons e t ih =>
    by_cases h : e.1 = id
    · simp [mapGet, h]
    · simpa [mapGet, h] using ih

/-- C7: a successful acquire leaves the chat holding a slot, and any
acquire for a chat that already holds a slot returns false with the
state unchanged, so the refused admission consumes no slot and alters
no startTime or lastActivity. -/
theorem acquire_duplicate_refused (s s₁ : QState) (id t now : Int) :
    (acquireFn id t s = (true, s₁) → hasKey s₁.activeBuilds id = true)
      ∧ (hasKey s.activeBuilds id = true → acquireFn id now s = (false, s)) := by
  constructor
  · intro h
    unfold acquireFn at h
    by_cases h1 : hasKey s.activeBuilds id
    · simp [h1] at h
    · by_cases h2 : (s.activeBuilds.length : Int) ≥ s.maxConcurrent
      · simp [h1, h2] at h
      · simp only [h1, Bool.false_eq_true, if_false, if_neg h2, Prod.mk.injEq, true_and] at h
        rw [← h]
        simp [hasKey, mapGet_append_single]
  · intro h
    unfold acquireFn
    simp [h]

/-- Closed instance of C7: after chat 5 acquires a slot, a second
acquire for chat 5 is refused and the state is untouched. -/
theorem acquire_duplicate_refused_witness :
    acquireFn 5 99 (QState.mk 1 [(5, Build.mk 10 10)])
      = (false, QState.mk 1 [(5, Build.mk 10 10)]) :=
  (acquire_duplicate_refused (QState.mk 1 [(5, Build.mk 10 10)])
    (QState.mk 1 [(5, Build.mk 10 10)]) 5 0 99).2 (by decide)

/-! ### updateActivity frame effect (C10) -/

/-- Counterexample to C10 as stated: chat 0 is present in the map, yet
updateActivity(0) takes the broadcast branch (0 is falsy in the
source's chatId && has(chatId) test) and bumps the unrelated slot of
chat 7 as well. -/
theorem updateActivity_zero_id_counterexample :
    hasKey (QState.mk 4 [(0, Build.mk 1 1), (7, Build.mk 2 2)]).activeBuilds 0 = true
      ∧ mapGet (updateActivityFn (some 0) 50
            (QState.mk 4 [(0, Build.mk 1 1), (7, Build.mk 2 2)])).activeBuilds 7
          ≠ mapGet (QState.mk 4 [(0, Build.mk 1 1), (7, Build.mk 2 2)]).activeBuilds 7 := by
  decide

theorem mapGet_touchOne_ne (l : List (Int × Build)) (i now j : Int) (hj : j ≠ i) :
    mapGet (l.map (fun e => if e.1 = i then (e.1, { e.2 with lastActivity := now }) else e)) j
      = mapGet l j := by
  induction l with
  | nil => rfl
  | cons e t ih =>
    simp only [List.map_cons]
    by_cases he : e.1 = i
    · have hij : i ≠ j := fun hc => hj hc.symm
      simp [mapGet, he, hij, ih]
    · simp only [if_neg he]
      by_cases hej : e.1 = j
      · simp [mapGet, hej]
      · simp [mapGet, hej, ih]

theorem mapGet_touchOne_self (l : List (Int × Build)) (i now : Int) (b : Build)
    (hb : mapGet l i = some b) :
    mapGet (l.map (fun e => if e.1 = i then (e.1, { e.2 with lastActivity := now }) else e)) i
      = some { b with lastActivity := now } := by
  induction l with
  | nil => simp [mapGet] at hb
  | cons e t ih =>
    simp only [List.map_cons]
    by_cases he : e.1 = i
    · simp only [mapGet, if_pos he] at hb
      cases hb
      simp [mapGet, he]
    · simp only [mapGet, if_neg he] at hb
      simp only [if_neg he]
      simp [mapGet, he, ih hb]

/-- C10 as amended: an id that is absent, or the falsy id 0, makes
updateActivity bump every slot exactly as the no-argument broadcast
does; only a nonzero id that is present bumps just that slot and
leaves every other slot unchanged. -/
theorem updateActivity_frame (s : QState) (id now : Int) :
    ((id = 0 ∨ hasKey s.activeBuilds id = false) →
        updateActivityFn (some id) now s = updateActivityFn none now s)
      ∧ (id ≠ 0 → hasKey s.activeBuilds id = true →
          (∀ j : Int, j ≠ id →
            mapGet (updateActivityFn (some id) now s).activeBuilds j
              = mapGet s.activeBuilds j)
          ∧ ∀ b : Build, mapGet s.activeBuilds id = some b →
              mapGet (updateActivityFn (some id) now s).activeBuilds id
                = some { b with lastActivity := now }) := by
  constructor
  · intro h
    have hcond : ¬(id ≠ 0 ∧ hasKey s.activeBuilds id) := by
      rcases h with h0 | habs
      · exact fun hc => hc.1 h0
      · exact fun hc => by rw [habs] at hc; exact Bool.false_ne_true hc.2
    simp [updateActivityFn, hcond]
  · intro h0 hk
    have hcond : id ≠ 0 ∧ hasKey s.activeBuilds id := ⟨h0, by rw [hk]⟩
    constructor
    · intro j hj
      simp only [updateActivityFn, if_pos hcond]
      exact mapGet_touchOne_ne s.activeBuilds id now j hj
    · intro b hb
      simp only [updateActivityFn, if_pos hcond]
      exact mapGet_touchOne_self s.activeBuilds id now b hb

/-- Closed instance of the amended C10: with slots for chats 0 and 7,
updateActivity(7) bumps the slot of chat 7 to the new timestamp. -/
theorem updateActivity_frame_witness :
    mapGet (updateActivityFn (some 7) 50
        (QState.mk 4 [(0, Build.mk 1 1), (7, Build.mk 2 2)])).activeBuilds 7
      = some (Build.mk 2 50) :=
  ((updateActivity_frame (QState.mk 4 [(0, Build.mk 1 1), (7, Build.mk 2 2)]) 7 50).2
    (by decide) (by decide)).2 (Build.mk 2 2) (by decide)

/-! ### Watchdog pass (C4) -/

theorem mapGet_mapDelete (l : List (Int × Build)) (i j : Int) :
    mapGet (mapDelete l i) j = if j = i then none else mapGet l j := by
  induction l with
  | nil => by_cases h : j = i <;> simp [mapDelete, mapGet, h]
  | cons e t ih =>
    by_cases he : e.1 = i
    · by_cases hj : j = i
      · simpa [mapDelete, he, hj] using ih
      · have hij : ¬ i = j := fun hc => hj hc.symm
        simpa [mapDelete, mapGet, he, hij, hj] using ih
    · by_cases hej : e.1 = j
      · have hj : j ≠ i := by rw [← hej]; exact he
        simp [mapDelete, mapGet, he, hej, hj]
      · simpa [mapDelete, mapGet, he, hej] using ih

theorem mapGet_isSome_of_mem (l : List (Int × Build)) (e : Int × Build)
    (he : e ∈ l) : (mapGet l e.1).isSome = true := by
  induction l with
  | nil => cases he
  | cons f t ih =>
    by_cases hf : f.1 = e.1
    · simp [mapGet, hf]
    · rcases List.mem_cons.1 he with rfl | ht
      · exact absurd rfl hf
      · simpa [mapGet, hf] using ih ht

theorem mem_of_mapGet (l : List (Int × Build)) (id : Int) (b : Build)
    (hb : mapGet l id = some b) : (id, b) ∈ l := by
  induction l with
  | nil => simp [mapGet] at hb
  | cons e t ih =>
    by_cases he : e.1 = id
    · simp only [mapGet, if_pos he] at hb
      cases hb
      rw [← he]
      exact Prod.mk.eta ▸ List.mem_cons_self e t
    · simp only [mapGet, if_neg he] at hb
      exact List.mem_cons_of_mem e (ih hb)

theorem mapGet_of_mem_nodup (l : List (Int × Build)) (e : Int × Build)
    (hn : (l.map Prod.fst).Nodup) (he : e ∈ l) : mapGet l e.1 = some e.2 := by
  induction l with
  | nil => cases he
  | cons f t ih =>
    rcases List.mem_cons.1 he with rfl | ht
    · simp [mapGet]
    · have hf1 : f.1 ≠ e.1 := by
        intro hc
        have : e.1 ∈ t.map Prod.fst := List.mem_map_of_mem Prod.fst ht
        rw [← hc] at this
        exact (List.nodup_cons.1 (by simpa using hn)).1 this
      have hnt : (t.map Prod.fst).Nodup := (List.nodup_cons.1 (by simpa using hn)).2
      simpa [mapGet, hf1] using ih hnt ht

theorem forceRelease_some_mapGet (i j : Int) (s : QState) (hi : i ≠ 0) :
    mapGet (forceReleaseFn (some i) s).activeBuilds j
      = if j = i then none else mapGet s.activeBuilds j := by
  unfold forceReleaseFn
  simp only [if_neg hi]
  by_cases hk : hasKey s.activeBuilds i
  · simp only [if_pos hk]
    exact mapGet_mapDelete s.activeBuilds i j
  · simp only [hk, Bool.false_eq_true, if_false]
    by_cases hj : j = i
    · rw [hj, if_pos rfl]
      unfold hasKey at hk
      cases hg : mapGet s.activeBuilds i with
      | none => rfl
      | some b => rw [hg] at hk; simp at hk
    · rw [if_neg hj]

theorem foldForce_mapGet (ids : List Int) (s : QState) (j : Int) (h0 : (0 : Int) ∉ ids) :
    mapGet ((ids.foldl (fun st i => forceReleaseFn (some i) st) s)).activeBuilds j
      = if j ∈ ids then none else mapGet s.activeBuilds j := by
  induction ids generalizing s with
  | nil => simp
  | cons i t ih =>
    have hi : i ≠ 0 := fun hc => h0 (by rw [← hc]; exact List.mem_cons_self i t)
    have h0t : (0 : Int) ∉ t := fun hc => h0 (List.mem_cons_of_mem i hc)
    rw [List.foldl_cons, ih (forceReleaseFn (some i) s) h0t,
      forceRelease_some_mapGet i j s hi]
    by_cases hjt : j ∈ t
    · simp [hjt, List.mem_cons]
    · by_cases hji : j = i <;> simp [hjt, hji, List.mem_cons]

theorem toRelease_eq (now : Int) (l : List (Int × Build)) (acc : List Int) :
    l.foldl (fun acc e => if stuckMark now e.2 then acc ++ [e.1] else acc) acc
      = acc ++ (l.filter (fun e => stuckMark now e.2)).map Prod.fst := by
  induction l generalizing acc with
  | nil => simp
  | cons e t ih =>
    by_cases hm : stuckMark now e.2
    · simp [hm, ih, List.filter_cons]
    · simp [hm, ih, List.filter_cons]

theorem checkStuck_mapGet (now : Int) (s : QState)
    (hn : (s.activeBuilds.map Prod.fst).Nodup)
    (h0 : mapGet s.activeBuilds 0 = none)
    (id : Int) (b : Build) (hb : mapGet s.activeBuilds id = some b) :
    mapGet (checkStuckBuilds now s).activeBuilds id
      = if stuckMark now b then none else some b := by
  have hne : s.activeBuilds.length ≠ 0 := by
    intro hc
    rw [List.length_eq_zero.1 hc] at hb
    simp [mapGet] at hb
  have hrw : checkStuckBuilds now s
      = ((s.activeBuilds.filter (fun e => stuckMark now e.2)).map Prod.fst).foldl
          (fun st i => forceReleaseFn (some i) st) s := by
    unfold checkStuckBuilds
    rw [if_neg hne]
    simp only [toRelease_eq, List.nil_append]
  set ids := (s.activeBuilds.filter (fun e => stuckMark now e.2)).map Prod.fst with hids
  have hmemids : ∀ k : Int, k ∈ ids ↔ ∃ e ∈ s.activeBuilds, e.1 = k ∧ stuckMark now e.2 := by
    intro k
    constructor
    · intro hk
      rcases List.mem_map.1 hk with ⟨e, hef, hk1⟩
      rcases List.mem_filter.1 hef with ⟨hel, hm⟩
      exact ⟨e, hel, hk1, hm⟩
    · rintro ⟨e, hel, hk1, hm⟩
      rw [← hk1]
      exact List.mem_map_of_mem Prod.fst (List.mem_filter.2 ⟨hel, hm⟩)
  have h0ids : (0 : Int) ∉ ids := by
    intro hk
    rcases (hmemids 0).1 hk with ⟨e, hel, he1, _⟩
    have := mapGet_isSome_of_mem s.activeBuilds e hel
    rw [he1, h0] at this
    simp at this
  rw [hrw, foldForce_mapGet ids s id h0ids]
  by_cases hm : stuckMark now b
  · have : id ∈ ids := (hmemids id).2 ⟨(id, b), mem_of_mapGet _ _ _ hb, rfl, hm⟩
    simp [this, hm]
  · have : id ∉ ids := by
      intro hk
      rcases (hmemids id).1 hk with ⟨e, hel, he1, hme⟩
      have := mapGet_of_mem_nodup s.activeBuilds e hn hel
      rw [he1, hb] at this
      cases this
      exact hm hme
    simp [this, hm, hb]

/-- C4: one watchdog pass at time now, over a well-formed map (unique
keys, no falsy chatId 0, slot timestamps set by acquire so
lastActivity is nonzero): a slot over the 45-minute absolute budget is
removed regardless of its lastActivity, a slot within the absolute
budget but inactive for more than 10 minutes is removed, and a slot
satisfying neither condition stays in the map unchanged. -/
theorem watchdog_pass_spec (s : QState) (now id : Int) (b : Build)
    (hn : (s.activeBuilds.map Prod.fst).Nodup)
    (h0 : mapGet s.activeBuilds 0 = none)
    (hb : mapGet s.activeBuilds id = some b)
    (hla : b.lastActivity ≠ 0) :
    (now - b.startTime > MAX_BUILD_TIME →
        mapGet (checkStuckBuilds now s).activeBuilds id = none)
      ∧ (now - b.lastActivity > INACTIVITY_TIMEOUT → now - b.startTime ≤ MAX_BUILD_TIME →
          mapGet (checkStuckBuilds now s).activeBuilds id = none)
      ∧ (now - b.startTime ≤ MAX_BUILD_TIME → now - b.lastActivity ≤ INACTIVITY_TIMEOUT →
          mapGet (checkStuckBuilds now s).activeBuilds id = some b) := by
  have hchar := checkStuck_mapGet now s hn h0 id b hb
  refine ⟨?_, ?_, ?_⟩
  · intro habs
    rw [hchar]
    have : stuckMark now b = true := by
      unfold stuckMark
      simp [habs]
    simp [this]
  · intro hinact habs
    rw [hchar]
    have : stuckMark now b = true := by
      unfold stuckMark
      rw [if_neg (by omega), if_pos (by rw [if_neg hla]; omega)]
    simp [this]
  · intro habs hinact
    rw [hchar]
    have : stuckMark now b = false := by
      unfold stuckMark
      rw [if_neg (by omega), if_neg (by rw [if_neg hla]; omega)]
    simp [this]

/-- Closed instance of C4: a slot 50 minutes past its startTime is
removed by the watchdog even though its lastActivity is current. -/
theorem watchdog_pass_spec_witness :
    mapGet (checkStuckBuilds 3000000 (QState.mk 2 [(5, Build.mk 0 2999999)])).activeBuilds 5
      = none :=
  (watchdog_pass_spec (QState.mk 2 [(5, Build.mk 0 2999999)]) 3000000 5
    (Build.mk 0 2999999) (by decide) (by decide) (by decide) (by decide)).1 (by decide)

/-! ### zipBuilder.js: text helpers

The supervisor works on JavaScript strings; these helpers translate the
string operations it uses (includes, substring, split, join, trim,
toLowerCase) onto Lean strings through their character lists. -/

/-- First index at which the needle occurs in the haystack, none when
it does not occur (String.prototype.indexOf). -/
def findSub : List Char → List Char → Option Nat
  | [], needle => if needle = ([] : List Char) then some 0 else none
  | hay@(_ :: t), needle =>
    if needle.isPrefixOf hay then some 0
    else (findSub t needle).map (fun k => k + 1)

/-- String.prototype.includes. -/
def strContains (s pat : String) : Bool :=
  (findSub s.toList pat.toList).isSome

/-- Lower-cased copy of a string. -/
def strToLower (s : String) : String :=
  (s.toList.map Char.toLower).asString

/-- Case-insensitive containment, the spec's reading of the stderr
forwarding test. -/
def strContainsCI (s pat : String) : Bool :=
  strContains (strToLower s) (strToLower pat)

/-- String.prototype.startsWith. -/
def strStartsWith (s pat : String) : Bool :=
  pat.toList.isPrefixOf s.toList

/-- String.prototype.endsWith. -/
def strEndsWith (s pat : String) : Bool :=
  pat.toList.isSuffixOf s.toList

/-- str.substring(0, n). -/
def takeStr (n : Nat) (s : String) : String :=
  (s.toList.take n).asString

/-- str.split(newline) on the character list. -/
def splitNL : List Char → List (List Char)
  | [] => [[]]
  | c :: t =>
    match splitNL t with
    | [] => [[]]
    | y :: ys => if c = '\n' then [] :: y :: ys else (c :: y) :: ys

/-- str.split(newline) as a list of lines. -/
def linesOf (s : String) : List String :=
  (splitNL s.toList).map List.asString

/-- Array.prototype.join(sep). -/
def joinStr (sep : String) : List String → String
  | [] => ""
  | [x] => x
  | x :: y :: t => x ++ sep ++ joinStr sep (y :: t)

/-- Last n elements of a list (Array.prototype.slice(-n)). -/
def lastN (n : Nat) (l : List String) : List String :=
  l.drop (l.length - n)

/-- str.trim(). -/
def trimChars (s : String) : String :=
  ((s.toList.dropWhile Char.isWhitespace).reverse.dropWhile Char.isWhitespace).reverse.asString

/-- The truthiness filter l.trim() used on lines: true on a blank line. -/
def isBlankLine (s : String) : Bool :=
  trimChars s = ""

/-! ### zipBuilder.js: runCommand stderr forwarding (C5) -/

/-- The stderr data handler's forwarding decision when an onOutput
callback is supplied: the chunk text must contain one of the exact
substrings in text.includes(...) of the source, and the forwarded
payload is the chunk prefixed and cut to 150 characters. -/
def stderrForward (text : String) : Option String :=
  if strContains text "error" || strContains text "Error" || strContains text "Exception" then
    some ("[!] " ++ takeStr 150 text)
  else none

/-- Modelled from the spec: a stderr chunk is forwarded iff it contains
"error" or "exception" case-insensitively. -/
def specStderrForwards (text : String) : Bool :=
  strContainsCI text "error" || strContainsCI text "exception"

/-! ### zipBuilder.js: runCommand error extraction (C8) -/

/-- One pattern of the ordered errorPatterns list applied to one line:
the matchers are anchored by .* to the end of the line, so a match is
the line from the first (case-insensitive for the i-flagged patterns)
occurrence of the trigger substring to the end of the line. -/
def matchLine (ci : Bool) (needle line : String) : Option String :=
  let hay := if ci then strToLower line else line
  let nd := if ci then strToLower needle else needle
  (findSub hay.toList nd.toList).map (fun i => (line.toList.drop i).asString)

/-- The ordered errorPatterns of runCommand: the flag records whether
the source regex carries the i flag, the string its trigger. The
"What went wrong" block pattern is lazy up to a lookahead that always
succeeds at the line end, so it too yields the line tail. -/
def errorPatterns : List (Bool × String) :=
  [(false, "FAILURE:"), (true, "error:"), (false, "Error:"), (false, "Exception:"),
   (false, "* What went wrong:"), (true, "Could not"), (true, "Cannot"),
   (true, "failed"), (true, "not found")]

/-- De-duplication keeping first occurrences, as new Set(...) does,
carrying the values already seen. -/
def dedupAux (seen : List String) : List String → List String
  | [] => []
  | x :: xs => if x ∈ seen then dedupAux seen xs else x :: dedupAux (seen ++ [x]) xs

/-- De-duplication keeping first occurrences, as new Set(...) does. -/
def dedupFirst (l : List String) : List String :=
  dedupAux [] l

/-- The collected, de-duplicated and capped error lines of the
extraction loop over errorPatterns. -/
def extractErrorLines (allOutput : String) : List String :=
  let ls := linesOf allOutput
  let raw := errorPatterns.foldl (fun acc p => acc ++ ls.filterMap (matchLine p.1 p.2)) []
  (dedupFirst raw).take 10

/-- The rejection message built in the close handler for a non-zero
exit code: pattern matches joined, else the last 20 non-blank lines
joined (or a code fallback when even that is empty), truncated to 1500
characters, with the pointer to the persisted .error log appended. -/
def errorMessageFor (stdout stderr logFile : String) (code : Int) : String :=
  let allOutput := stdout ++ "\n" ++ stderr
  let errorLines := extractErrorLines allOutput
  let errorMsg :=
    if errorLines.length > 0 then joinStr "\n" errorLines
    else
      let lastLines := lastN 20 ((linesOf allOutput).filter (fun l => !(isBlankLine l)))
      let m := joinStr "\n" lastLines
      if m = "" then "Build failed with code " ++ toString code else m
  takeStr 1500 errorMsg ++ "\n\n[Debug log: " ++ logFile ++ ".error]"

/-! ### zipBuilder.js: runCommand timeout policy (C3)

Time in milliseconds from the spawn instant. The checker installed by
runCommand runs every 60 s and compares now against lastActivity, the
time of the most recent stdout or stderr chunk (initially the spawn
time 0); it fires, kills the process and rejects with the inactivity
message when the gap exceeds 30 minutes. It is cleared when the
process closes, so only checks strictly before the exit time run. -/

/-- 30 minutes in milliseconds (TIMEOUT_MS of runCommand). -/
def TIMEOUT_MS : Nat := 30 * 60 * 1000

/-- The checker period of 60 s. -/
def CHECK_PERIOD_MS : Nat := 60000

/-- lastActivity as seen at time t: the latest output event not after
t, or the spawn time 0. -/
def lastActivityAt (events : List Nat) (t : Nat) : Nat :=
  (events.filter (fun e => decide (e ≤ t))).foldl max 0

/-- The checker instants that run before the process closes at exit. -/
def checkTimes (exit : Nat) : List Nat :=
  ((List.range (exit / CHECK_PERIOD_MS + 1)).map (fun k => (k + 1) * CHECK_PERIOD_MS)).filter
    (fun t => decide (t < exit))

/-- The first checker instant at which the inactivity test fires, if
any: the checker clears itself and kills the process there. -/
def killTime (events : List Nat) (exit : Nat) : Option Nat :=
  ((checkTimes exit).filter
    (fun t => decide (TIMEOUT_MS < t - lastActivityAt events t))).head?

/-- How one supervised run settles. -/
inductive RunOutcome where
  | resolved (stdout : String)
  | buildFailed (code : Int)
  | timedOut (msg : String)
  deriving DecidableEq, Repr

/-- The settlement of the runCommand promise for a process with output
events at the given instants that would close at exit with the given
code: a fired checker rejects first with the inactivity message,
otherwise code 0 resolves with stdout and a non-zero code rejects. -/
def runCommandOutcome (events : List Nat) (exit : Nat) (code : Int) (stdout : String) :
    RunOutcome :=
  match killTime events exit with
  | some _ => .timedOut "Build timeout (30 minutes of inactivity)"
  | none => if code = 0 then .resolved stdout else .buildFailed code

/-! ### C5: stderr forwarding condition -/

/-- Counterexample to C5 as stated: the chunk "unhandled exception"
contains "exception" case-insensitively, so the claim says it is
forwarded, but the source's case-sensitive includes tests
("error", "Error", "Exception") all fail and the chunk is dropped. -/
theorem stderrForward_case_counterexample :
    specStderrForwards "unhandled exception" = true
      ∧ stderrForward "unhandled exception" = none := by
  decide

/-- C5 as amended: a stderr chunk is forwarded to the callback iff it
contains one of the exact, case-sensitive substrings "error", "Error"
or "Exception"; the forwarded payload is the chunk prefixed with
an alert marker and truncated to 150 characters. -/
theorem stderrForward_spec (text : String) :
    ((stderrForward text).isSome
        = (strContains text "error" || strContains text "Error" || strContains text "Exception"))
      ∧ (∀ fw, stderrForward text = some fw → fw = "[!] " ++ takeStr 150 text) := by
  constructor
  · unfold stderrForward
    by_cases h : strContains text "error" || strContains text "Error" || strContains text "Exception"
    · simp [h]
    · simp [h]
  · intro fw hfw
    unfold stderrForward at hfw
    by_cases h : strContains text "error" || strContains text "Error" || strContains text "Exception"
    · rw [if_pos h] at hfw
      exact (Option.some.injEq _ _ ▸ hfw).symm
    · rw [if_neg h] at hfw
      cases hfw

/-- Closed instance of the amended C5: a chunk containing "error:" is
forwarded with the alert prefix. -/
theorem stderrForward_spec_witness :
    ("[!] error: boom" : String) = "[!] " ++ takeStr 150 "error: boom" :=
  (stderrForward_spec "error: boom").2 "[!] error: boom" (by decide)

/-! ### C8: fallback error message -/

theorem joinStr_ne_empty (sep x : String) (xs : List String) (hx : x ≠ "") :
    joinStr sep (x :: xs) ≠ "" := by
  cases xs with
  | nil => simpa [joinStr] using hx
  | cons y t =>
    simp only [joinStr]
    intro hc
    apply hx
    have hd := congrArg String.data hc
    simp only [String.data_append] at hd
    rcases (by simpa using hd :
        x.data = [] ∧ sep.data = [] ∧ (joinStr sep (y :: t)).data = []) with ⟨hx0, -, -⟩
    exact String.ext hx0

theorem blank_of_empty : isBlankLine "" = true := by decide

/-- C8: when no error pattern matches the combined output of a failed
command and that output has at least one non-blank line, the rejection
message is exactly the last 20 non-blank lines joined by newlines,
truncated to 1500 characters, followed by the pointer to the persisted
.error log file. -/
theorem errorMessage_fallback (stdout stderr logFile : String) (code : Int)
    (hE : extractErrorLines (stdout ++ "\n" ++ stderr) = [])
    (hL : (linesOf (stdout ++ "\n" ++ stderr)).filter (fun l => !(isBlankLine l)) ≠ []) :
    errorMessageFor stdout stderr logFile code
      = takeStr 1500 (joinStr "\n"
            (lastN 20 ((linesOf (stdout ++ "\n" ++ stderr)).filter (fun l => !(isBlankLine l)))))
          ++ "\n\n[Debug log: " ++ logFile ++ ".error]" := by
  have hKne : lastN 20 ((linesOf (stdout ++ "\n" ++ stderr)).filter (fun l => !(isBlankLine l))) ≠ [] := by
    unfold lastN
    intro hc
    apply hL
    have hlen := congrArg List.length hc
    simp only [List.length_drop, List.length_nil] at hlen
    have : ((linesOf (stdout ++ "\n" ++ stderr)).filter (fun l => !(isBlankLine l))).length = 0 := by
      omega
    exact List.length_eq_zero.1 this
  rcases List.exists_cons_of_ne_nil hKne with ⟨x, t, hxt⟩
  have hxmem : x ∈ (linesOf (stdout ++ "\n" ++ stderr)).filter (fun l => !(isBlankLine l)) := by
    have : x ∈ lastN 20 ((linesOf (stdout ++ "\n" ++ stderr)).filter (fun l => !(isBlankLine l))) := by
      rw [hxt]
      exact List.mem_cons_self x t
    exact List.drop_subset _ _ this
  have hxblank : isBlankLine x = false := by
    have := (List.mem_filter.1 hxmem).2
    simpa using this
  have hxne : x ≠ "" := by
    intro hc
    rw [hc, blank_of_empty] at hxblank
    cases hxblank
  have hm : joinStr "\n" (lastN 20 ((linesOf (stdout ++ "\n" ++ stderr)).filter (fun l => !(isBlankLine l)))) ≠ "" := by
    rw [hxt]
    exact joinStr_ne_empty "\n" x t hxne
  unfold errorMessageFor
  simp only [hE, List.length_nil, gt_iff_lt, lt_irrefl, if_false]
  rw [if_neg hm]

/-- Closed instance of C8: a failure output with no pattern trigger
falls back to the joined non-blank lines with the log pointer. -/
theorem errorMessage_fallback_witness :
    errorMessageFor "alpha\nbeta" "" "log1" 9
      = takeStr 1500 (joinStr "\n"
            (lastN 20 ((linesOf ("alpha\nbeta" ++ "\n" ++ "")).filter (fun l => !(isBlankLine l)))))
          ++ "\n\n[Debug log: " ++ "log1" ++ ".error]" :=
  errorMessage_fallback "alpha\nbeta" "" "log1" 9 (by decide) (by decide)

/-! ### C3: timeout policy of runCommand -/

/-- Counterexample to C3 as stated: a process that keeps producing
output every 50 seconds runs for a full 60 minutes - past the
45-minute absolute budget the spec assigns to a build, and past any
absolute deadline - yet no checker instant fires and the run settles
as an ordinary failure, not a timeout: runCommand has no
absolute-from-start policy and no per-step timeout configuration. -/
theorem runCommand_no_absolute_timeout :
    runCommandOutcome ((List.range 73).map (fun k => k * 50000)) 3600000 137 ""
        = RunOutcome.buildFailed 137
      ∧ (3600000 : Nat) > 45 * 60 * 1000 := by
  constructor
  · decide
  · decide

/-- C3 as amended: runCommand enforces a single fixed inactivity-window
policy, not an absolute-from-start one: a checker runs every 60 s
until the process closes and fires exactly when more than 30 minutes
have passed since the last output chunk; a fired checker settles the
step with a timeout error, and when no checker fires the run settles
by exit code alone, however long it ran. -/
theorem runCommand_inactivity_policy (events : List Nat) (exit : Nat) (code : Int)
    (out : String) :
    (killTime events exit = none →
        runCommandOutcome events exit code out
          = if code = 0 then .resolved out else .buildFailed code)
      ∧ (∀ T ∈ checkTimes exit, TIMEOUT_MS < T - lastActivityAt events T →
          ∃ msg, runCommandOutcome events exit code out = .timedOut msg)
      ∧ (killTime events exit = none ↔
          ∀ T ∈ checkTimes exit, T - lastActivityAt events T ≤ TIMEOUT_MS) := by
  refine ⟨?_, ?_, ?_⟩
  · intro h
    unfold runCommandOutcome
    rw [h]
  · intro T hT hgt
    have hmem : T ∈ (checkTimes exit).filter
        (fun t => decide (TIMEOUT_MS < t - lastActivityAt events t)) :=
      List.mem_filter.2 ⟨hT, by simpa using hgt⟩
    unfold runCommandOutcome killTime
    rcases hfilter : (checkTimes exit).filter
        (fun t => decide (TIMEOUT_MS < t - lastActivityAt events t)) with _ | ⟨w, ws⟩
    · rw [hfilter] at hmem
      cases hmem
    · simp [hfilter]
  · constructor
    · intro h T hT
      by_contra hgt
      push_neg at hgt
      have hmem : T ∈ (checkTimes exit).filter
          (fun t => decide (TIMEOUT_MS < t - lastActivityAt events t)) :=
        List.mem_filter.2 ⟨hT, by simpa using hgt⟩
      unfold killTime at h
      rcases hfilter : (checkTimes exit).filter
          (fun t => decide (TIMEOUT_MS < t - lastActivityAt events t)) with _ | ⟨w, ws⟩
      · rw [hfilter] at hmem
        cases hmem
      · rw [hfilter] at h
        cases h
    · intro h
      unfold killTime
      rcases hfilter : (checkTimes exit).filter
          (fun t => decide (TIMEOUT_MS < t - lastActivityAt events t)) with _ | ⟨w, ws⟩
      · rfl
      · exfalso
        have hwmem : w ∈ (checkTimes exit).filter
            (fun t => decide (TIMEOUT_MS < t - lastActivityAt events t)) := by
          rw [hfilter]
          exact List.mem_cons_self w ws
        rcases List.mem_filter.1 hwmem with ⟨hw1, hw2⟩
        have := h w hw1
        simp only [decide_eq_true_eq] at hw2
        omega

/-- Closed instance of the amended C3: with no output at all, the
checker at 31 minutes fires and the run settles as a timeout. -/
theorem runCommand_inactivity_policy_witness :
    ∃ msg, runCommandOutcome [] 2000000 137 "" = RunOutcome.timedOut msg :=
  (runCommand_inactivity_policy [] 2000000 137 "").2.1 1860000 (by decide) (by decide)

/-! ### zipBuilder.js: recursive artifact search (C9)

A directory tree stands in for the filesystem; entries appear in
readdir order. The source checks the depth bound at function entry
and recurses into a subdirectory with depth + 1, which is modelled
here by guarding each recursive call (and the root call, in the
wrapper) with the same test; a file is returned when its name ends in
the extension, and a directory is entered only when its name does not
start with a dot and is not node_modules. -/

/-- A filesystem entry: a file or a directory with children. -/
inductive FSEntry where
  | file (name : String)
  | dir (name : String) (children : List FSEntry)

/-- The loop of findFileRecursive over the entries of one directory at
the given depth, accumulating the path from the root; the bound check
depth + 1 > maxDepth guards each recursion exactly as the source's
entry check does for the callee. -/
def findItems (ext : String) (maxDepth : Nat) : Nat → List String → List FSEntry → Option (List String)
  | _, _, [] => none
  | depth, path, FSEntry.file n :: rest =>
    if strEndsWith n ext then some (path ++ [n])
    else findItems ext maxDepth depth path rest
  | depth, path, FSEntry.dir n cs :: rest =>
    if strStartsWith n "." || n == "node_modules" then
      findItems ext maxDepth depth path rest
    else
      match (if depth + 1 > maxDepth then none
             else findItems ext maxDepth (depth + 1) (path ++ [n]) cs) with
      | some r => some r
      | none => findItems ext maxDepth depth path rest

/-- findFileRecursive(dir, ext, maxDepth = 5, depth = 0) on the
children of the root directory. -/
def findFileRecursive (root : List FSEntry) (ext : String) (maxDepth : Nat) (depth : Nat) :
    Option (List String) :=
  if depth > maxDepth then none
  else findItems ext maxDepth depth [] root

/-- C9: with the default bound 5, the fallback search finds a file
with the target extension three directories deep, does not find one
nested six directories deep (the call at depth 6 returns before
reading the directory), and skips over any directory whose name starts
with a dot or equals node_modules without entering it. -/
theorem findFileRecursive_spec :
    findFileRecursive
        [FSEntry.dir "out" [FSEntry.dir "a" [FSEntry.dir "b" [FSEntry.file "app-custom.apk"]]],
         FSEntry.file "readme.md"] ".apk" 5 0
      = some ["out", "a", "b", "app-custom.apk"]
    ∧ findFileRecursive
        [FSEntry.dir "d1" [FSEntry.dir "d2" [FSEntry.dir "d3" [FSEntry.dir "d4"
          [FSEntry.dir "d5" [FSEntry.dir "d6" [FSEntry.file "app.apk"]]]]]]] ".apk" 5 0
      = none
    ∧ ∀ (ext : String) (maxDepth depth : Nat) (path : List String)
        (n : String) (cs rest : List FSEntry),
        (strStartsWith n "." = true ∨ n = "node_modules") →
        findItems ext maxDepth depth path (FSEntry.dir n cs :: rest)
          = findItems ext maxDepth depth path rest := by
  refine ⟨by simp +decide [findFileRecursive, findItems],
    by simp +decide [findFileRecursive, findItems], ?_⟩
  intro ext maxDepth depth path n cs rest h
  have hcond : (strStartsWith n "." || n == "node_modules") = true := by
    rcases h with h1 | h2
    · rw [h1, Bool.true_or]
    · rw [h2]
      simp
  simp only [findItems, hcond, if_true]

/-- Closed instance of the exclusion part of C9: a dot-directory is
skipped even though it holds a matching file. -/
theorem findFileRecursive_spec_witness :
    findItems ".apk" 5 0 [] [FSEntry.dir ".git" [FSEntry.file "x.apk"]]
      = findItems ".apk" 5 0 [] [] :=
  findFileRecursive_spec.2.2 ".apk" 5 0 [] ".git" [FSEntry.file "x.apk"] [] (Or.inl (by decide))

/-! ### zipBuilder.js: buildFromZip cleanup policy (C6) -/

/-- The cleanup removals buildFromZip can attempt: the per-job temp
directory and the uploaded source ZIP. -/
inductive CleanupAction where
  | removeTempDir
  | removeZip
  deriving DecidableEq, Repr

/-- The value buildFromZip resolves with. -/
inductive ZipResult where
  | ok (apkPath buildDir : String)
  | err (msg : String)
  deriving DecidableEq, Repr

/-- The externally determined course of one buildFromZip invocation:
whether extraction throws, whether a project root is found, how the
inner build settles, and whether each cleanup removal fails (every
removal in the source is awaited with a swallowing catch). -/
structure ZipRun where
  extractError : Option String
  rootFound : Bool
  projectType : String
  buildOutcome : Except String String
  removeZipFails : Bool
  removeTempFails : Bool

/-- buildFromZip as a trace: the result it resolves with and the
cleanup removals it attempts, in order. Extraction failure, a missing
project root and a build failure all land in the catch block, which
attempts to remove the temp directory and the ZIP; the success path
removes only the ZIP and returns the temp directory as buildDir.
Each removal carries a swallowing catch, so the removeZipFails and
removeTempFails outcomes influence neither the result nor the rest of
the trace. -/
def buildFromZip (tempDir : String) (r : ZipRun) : ZipResult × List CleanupAction :=
  match r.extractError with
  | some m => (.err m, [.removeTempDir, .removeZip])
  | none =>
    if !r.rootFound then
      (.err ("Invalid " ++ r.projectType ++ " project. Required files not found."),
       [.removeTempDir, .removeZip])
    else
      match r.buildOutcome with
      | .error m => (.err m, [.removeTempDir, .removeZip])
      | .ok apk => (.ok apk tempDir, [.removeZip])

/-- Counterexample to C6 as stated: on a fully successful invocation
the pipeline removes only the uploaded ZIP; removal of the extraction
working directory is not attempted (the directory is handed back as
buildDir instead). -/
theorem buildFromZip_success_keeps_tempdir :
    (buildFromZip "tempd" (ZipRun.mk none true "flutter" (Except.ok "out.apk") false false)).1
        = ZipResult.ok "out.apk" "tempd"
      ∧ CleanupAction.removeTempDir ∉
          (buildFromZip "tempd" (ZipRun.mk none true "flutter" (Except.ok "out.apk") false false)).2 := by
  decide

/-- C6 as amended: every invocation of buildFromZip attempts removal
of the uploaded source ZIP; every failing invocation also attempts
removal of the extraction working directory; a successful invocation
attempts only the ZIP removal and returns the working directory as
buildDir for the caller to clean up; and cleanup failures are
swallowed - the whole trace is independent of whether either removal
fails. -/
theorem buildFromZip_cleanup_policy (tempDir : String) (r : ZipRun) :
    (CleanupAction.removeZip ∈ (buildFromZip tempDir r).2)
      ∧ (∀ m, (buildFromZip tempDir r).1 = .err m →
          CleanupAction.removeTempDir ∈ (buildFromZip tempDir r).2)
      ∧ (∀ apk dir, (buildFromZip tempDir r).1 = .ok apk dir →
          (buildFromZip tempDir r).2 = [CleanupAction.removeZip] ∧ dir = tempDir)
      ∧ (∀ x y, buildFromZip tempDir
            (ZipRun.mk r.extractError r.rootFound r.projectType r.buildOutcome x y)
          = buildFromZip tempDir r) := by
  rcases r with ⟨eE, rF, pT, bO, rZ, rT⟩
  cases eE with
  | some m => exact ⟨by simp [buildFromZip], by simp [buildFromZip],
      by simp [buildFromZip], by intro x y; rfl⟩
  | none =>
    cases rF with
    | false => exact ⟨by simp [buildFromZip], by simp [buildFromZip],
        by simp [buildFromZip], by intro x y; rfl⟩
    | true =>
      cases bO with
      | error m => exact ⟨by simp [buildFromZip], by simp [buildFromZip],
          by simp [buildFromZip], by intro x y; rfl⟩
      | ok apk =>
        refine ⟨by simp [buildFromZip], by simp [buildFromZip], ?_, by intro x y; rfl⟩
        intro apk2 dir h
        simp only [buildFromZip, Bool.not_true, if_false] at h ⊢
        cases h
        exact ⟨rfl, rfl⟩

/-- Closed instance of the amended C6: a failing invocation (no
project root) attempts removal of the temp directory. -/
theorem buildFromZip_cleanup_policy_witness :
    CleanupAction.removeTempDir ∈
      (buildFromZip "tempd" (ZipRun.mk none false "flutter" (Except.ok "x") false false)).2 :=
  (buildFromZip_cleanup_policy "tempd"
      (ZipRun.mk none false "flutter" (Except.ok "x") false false)).2.1
    "Invalid flutter project. Required files not found." (by decide)

/-! ### callbackHandler.js: handleZipUpload queue release (C1) -/

/-- The externally determined course of one handleZipUpload call:
whether the session is in the zip_upload step, whether the queue
admits the chat, how buildFromZip settles, the artifact size and the
Telegram size limit in force. -/
structure ZipUploadRun where
  sessionOk : Bool
  acquireGranted : Bool
  buildResult : ZipResult
  apkSize : Int
  maxFileSize : Int

/-- What one handleZipUpload call did: its return value, whether the
queue slot was acquired and whether buildQueue.release ran before the
call ended. -/
structure ZipUploadTrace where
  handled : Bool
  acquired : Bool
  released : Bool
  deriving DecidableEq, Repr

/-- handleZipUpload as a trace over the queue. A missing session
returns false untouched; a refused acquire cleans up and returns with
no slot held. With a slot held, a failed build throws into the catch
block and then reaches the release after the try/catch; a successful
build whose artifact fits is sent and also reaches that release; but
a successful build whose artifact exceeds the size limit returns true
from inside the try block, past no release at all. -/
def handleZipUpload (r : ZipUploadRun) : ZipUploadTrace :=
  if !r.sessionOk then ⟨false, false, false⟩
  else if !r.acquireGranted then ⟨true, false, false⟩
  else
    match r.buildResult with
    | .ok _ _ =>
      if r.apkSize > r.maxFileSize then ⟨true, true, false⟩
      else ⟨true, true, true⟩
    | .err _ => ⟨true, true, true⟩

/-- C1 fails on the code: on the oversized-artifact path of
handleZipUpload (here 100 MB against the 50 MB standard Bot API
limit) the handler returns with the acquired slot still held -
buildQueue.release(chatId) sits after the try/catch instead of in a
finally block, and the early return inside try skips it. -/
theorem handleZipUpload_oversized_leaks_slot :
    handleZipUpload
        (ZipUploadRun.mk true true (ZipResult.ok "out.apk" "dir")
          (100 * 1024 * 1024) (50 * 1024 * 1024))
      = ZipUploadTrace.mk true true false := by
  decide

end Web2Apk
